import Mathlib

/-!
Verification of the capslock-lite repository.

The repository ships one C source file, `src/bad_actor.c`: a demonstration
stub `c_write_access` that receives a raw pointer from a foreign caller,
writes the constant 9999 through it, and then calls the external
`capslock_revoke` primitive on the same address.  The capability-tagged
memory-region tracker that `capslock_revoke` belongs to is not part of the
shipped sources; its design (Region Table, tag minting, access check,
revocation engine) is given by the specification and is modelled here from
the specification's words.

The first part embeds `c_write_access` as a pure function producing the
updated memory together with the ordered trace of its observable events.
The second part models the tracker and proves the specification's testable
properties about it.
-/

namespace BadActor

/-- Observable events of `c_write_access` in `src/bad_actor.c`, in program
order: the `printf` call (which only mentions the pointer value), the store
through the pointer, and the call to the external `capslock_revoke`. -/
inductive CEvent where
  | print (addr : Nat)
  | store (addr : Nat) (val : Int)
  | revokeCall (base : Nat)
deriving DecidableEq

/-- Shallow embedding of `c_write_access` from `src/bad_actor.c`.  The
pointer is an opaque address (`Nat`, the value of `(uintptr_t)ptr`) and the
int heap is a total map `Nat → Int`.  The body first prints the pointer,
then performs `*ptr = 9999`, then calls `capslock_revoke((uintptr_t)ptr)`;
the result is the updated memory together with the ordered event trace. -/
def c_write_access (ptr : Nat) (mem : Nat → Int) : (Nat → Int) × List CEvent :=
  (fun a => if a = ptr then (9999 : Int) else mem a,
   [CEvent.print ptr, CEvent.store ptr 9999, CEvent.revokeCall ptr])

/-- Recognizes a call to `capslock_revoke` in an event trace. -/
def isRevokeCall : CEvent → Bool
  | CEvent.revokeCall _ => true
  | _ => false

/-- C1: the write through `p` happens strictly before the call to
`capslock_revoke`: the store is the event at index 1 of the trace, and any
occurrence of a revocation call sits at a strictly larger index, so in no
execution does the revocation precede the write. -/
theorem write_precedes_revoke (ptr k a : Nat) (mem : Nat → Int)
    (h : ((c_write_access ptr mem).2)[k]? = some (CEvent.revokeCall a)) :
    1 < k ∧ ((c_write_access ptr mem).2)[1]? = some (CEvent.store ptr 9999) := by
  rcases k with _ | _ | _ | n
  · simp [c_write_access] at h
  · simp [c_write_access] at h
  · exact ⟨by omega, rfl⟩
  · simp [c_write_access] at h

/-- Witness for C1 at the concrete pointer 4096 and the all-zero heap: the
revocation call occurs at index 2 of the trace. -/
theorem write_precedes_revoke_witness :
    ((c_write_access 4096 (fun _ => 0)).2)[2]? = some (CEvent.revokeCall 4096) ∧
    (1 < 2 ∧ ((c_write_access 4096 (fun _ => 0)).2)[1]?
      = some (CEvent.store 4096 9999)) :=
  ⟨rfl, write_precedes_revoke 4096 2 4096 (fun _ => 0) rfl⟩

/-- C2: every address passed to `capslock_revoke` by `c_write_access` equals
the pointer it just wrote through, i.e. `(uintptr_t)ptr`. -/
theorem revoke_targets_written_address (ptr k a : Nat) (mem : Nat → Int)
    (h : ((c_write_access ptr mem).2)[k]? = some (CEvent.revokeCall a)) :
    a = ptr := by
  rcases k with _ | _ | _ | n
  · simp [c_write_access] at h
  · simp [c_write_access] at h
  · simp [c_write_access] at h
    omega
  · simp [c_write_access] at h

/-- Witness for C2 at the concrete pointer 4096: the revocation call at
index 2 targets address 4096. -/
theorem revoke_targets_written_address_witness : (4096 : Nat) = 4096 :=
  revoke_targets_written_address 4096 2 4096 (fun _ => 0) rfl

/-- C8: `c_write_access` writes through its pointer unconditionally: for
every input, including the null address 0, the store event is emitted (there
is no null test or access check guarding it) and the post-state memory holds
9999 at the written address. -/
theorem unconditional_write (ptr : Nat) (mem : Nat → Int) :
    ((c_write_access ptr mem).2)[1]? = some (CEvent.store ptr 9999) ∧
    (c_write_access ptr mem).1 ptr = 9999 ∧
    ((c_write_access 0 mem).2)[1]? = some (CEvent.store 0 9999) ∧
    (c_write_access 0 mem).1 0 = 9999 := by
  refine ⟨rfl, ?_, rfl, ?_⟩ <;> simp [c_write_access]

/-- C9: the value stored by `c_write_access` is the constant 9999 for every
input: every store event in the trace carries value 9999 at the pointer's
own address, independent of the pointer and of the memory's prior
contents. -/
theorem stored_value_constant (ptr k a : Nat) (v : Int) (mem : Nat → Int)
    (h : ((c_write_access ptr mem).2)[k]? = some (CEvent.store a v)) :
    v = 9999 ∧ a = ptr ∧ (c_write_access ptr mem).1 ptr = 9999 := by
  rcases k with _ | _ | _ | n
  · simp [c_write_access] at h
  · simp [c_write_access] at h
    exact ⟨h.2.symm, h.1.symm, by simp [c_write_access]⟩
  · simp [c_write_access] at h
  · simp [c_write_access] at h

/-- Witness for C9 at pointer 4096 and the all-zero heap: the store event at
index 1 carries the constant 9999. -/
theorem stored_value_constant_witness :
    (9999 : Int) = 9999 ∧ (4096 : Nat) = 4096 ∧
    (c_write_access 4096 (fun _ => 0)).1 4096 = 9999 :=
  stored_value_constant 4096 1 4096 9999 (fun _ => 0) rfl

/-- C10: each invocation of `c_write_access` calls `capslock_revoke` exactly
once: the event trace contains exactly one revocation call on every
execution path (the function is straight-line code). -/
theorem revoke_called_exactly_once (ptr : Nat) (mem : Nat → Int) :
    ((c_write_access ptr mem).2).countP isRevokeCall = 1 := by
  simp [c_write_access, isRevokeCall, List.countP_cons, List.countP_nil]

end BadActor

namespace Capslock

/-- Modelled from the spec: the set of {read, write, execute} permissions
currently allowed on a region (spec §3, Region.permissions). -/
structure Permissions where
  read : Bool
  write : Bool
  exec : Bool
deriving DecidableEq

/-- Modelled from the spec: a memory operation kind gated by the access
check (spec §4.3). -/
inductive Op where
  | read
  | write
  | exec
deriving DecidableEq

/-- Whether an operation kind is in the permission set. -/
def Permissions.allows (p : Permissions) : Op → Bool
  | Op.read => p.read
  | Op.write => p.write
  | Op.exec => p.exec

/-- Modelled from the spec: one allocated memory extent under tracking
(spec §3, Region): opaque base address, byte length, monotonically
increasing generation, permission set, and validity flag (false once
revoked). -/
structure Region where
  base : Nat
  size : Nat
  generation : Nat
  permissions : Permissions
  valid : Bool
deriving DecidableEq

/-- Modelled from the spec: a capability tag minted for a pointer crossing
a trust boundary (spec §3, Capability Tag): region reference, snapshot of
the region's generation at issue time, and byte offset in the region. -/
structure Tag where
  region_id : Nat
  generation_at_issue : Nat
  offset : Nat
deriving DecidableEq

/-- Modelled from the spec: denial reasons of the access check
(spec §4.3 and §7). -/
inductive Reason where
  | Revoked
  | StaleGeneration
  | PermissionViolation
  | OutOfBounds
deriving DecidableEq

/-- Modelled from the spec: outcome of `check` (spec §4.3). -/
inductive CheckResult where
  | Ok
  | Denied (r : Reason)
deriving DecidableEq

/-- Modelled from the spec: error taxonomy of the tracker API (spec §7). -/
inductive TrackerError where
  | OverlapError
  | UnknownRegion
  | NotFound
deriving DecidableEq

/-- Modelled from the spec: the Region Table, the single source of truth
mapping region ids to region records (spec §4.1).  A region id is an index
into the list; `deregister` blanks the slot to `none` so ids are never
reused (spec §4.4: reinstatement is a new region with a fresh id). -/
structure Tracker where
  regions : List (Option Region)
deriving DecidableEq

/-- The tracker with no registered regions. -/
def emptyTracker : Tracker := Tracker.mk []

/-- Resolve a region id in the Region Table. -/
def findRegion (t : Tracker) (rid : Nat) : Option Region :=
  (t.regions[rid]?).getD none

/-- Whether the half-open ranges `[b1, b1+s1)` and `[b2, b2+s2)` share at
least one address. -/
def overlaps (b1 s1 b2 s2 : Nat) : Bool :=
  decide (max b1 b2 < min (b1 + s1) (b2 + s2))

/-- Whether a candidate range intersects some existing valid region of the
table (the failure condition of `register`, spec §4.1). -/
def overlapsExisting (t : Tracker) (base size : Nat) : Bool :=
  t.regions.any (fun o =>
    match o with
    | some r => r.valid && overlaps base size r.base r.size
    | none => false)

/-- Modelled from the spec: `register(base, size, permissions)` (spec §4.1):
fails with `OverlapError` if the new range intersects any existing valid
region, otherwise appends a fresh region with generation 0 and returns its
new id. -/
def register (t : Tracker) (base size : Nat) (perms : Permissions) :
    Except TrackerError (Nat × Tracker) :=
  if overlapsExisting t base size then Except.error TrackerError.OverlapError
  else Except.ok (t.regions.length,
    Tracker.mk (t.regions ++ [some (Region.mk base size 0 perms true)]))

/-- Modelled from the spec: `deregister(region_id)` (spec §4.1): fails with
`UnknownRegion` if absent, otherwise removes the table entry entirely. -/
def deregister (t : Tracker) (rid : Nat) : Except TrackerError Tracker :=
  match findRegion t rid with
  | none => Except.error TrackerError.UnknownRegion
  | some _ => Except.ok (Tracker.mk (t.regions.set rid none))

/-- Modelled from the spec: `bump_generation(region_id)` (spec §4.1): fails
with `UnknownRegion` if absent, otherwise increments the region's
generation. -/
def bump_generation (t : Tracker) (rid : Nat) : Except TrackerError Tracker :=
  match findRegion t rid with
  | none => Except.error TrackerError.UnknownRegion
  | some r => Except.ok (Tracker.mk (t.regions.set rid
      (some (Region.mk r.base r.size (r.generation + 1) r.permissions r.valid))))

/-- Modelled from the spec: `lookup(address)` (spec §4.1): the id of the
valid region whose `[base, base+size)` range contains the address, if
any. -/
def lookup (t : Tracker) (a : Nat) : Option Nat :=
  (List.range t.regions.length).find? (fun i =>
    match findRegion t i with
    | some r => r.valid && decide (r.base ≤ a) && decide (a < r.base + r.size)
    | none => false)

/-- Modelled from the spec: `mint(address)` (spec §4.2): look up the owning
region, fail `NotFound` for untracked addresses, otherwise snapshot the
current generation and compute the offset.  Pure read of the Region
Table. -/
def mint (t : Tracker) (a : Nat) : Except TrackerError Tag :=
  match lookup t a with
  | none => Except.error TrackerError.NotFound
  | some rid =>
    match findRegion t rid with
    | none => Except.error TrackerError.NotFound
    | some r => Except.ok (Tag.mk rid r.generation (a - r.base))

/-- Modelled from the spec: `check(tag, operation)` (spec §4.3): deny
`Revoked` when the region is absent or invalid, `StaleGeneration` when the
generation moved past the tag's snapshot, `PermissionViolation` when the
operation is not allowed, `OutOfBounds` when the offset exceeds the current
size; otherwise `Ok`.  Pure validation, fail closed. -/
def check (t : Tracker) (tag : Tag) (op : Op) : CheckResult :=
  match findRegion t tag.region_id with
  | none => CheckResult.Denied Reason.Revoked
  | some r =>
    if r.valid = false then CheckResult.Denied Reason.Revoked
    else if tag.generation_at_issue ≠ r.generation then
      CheckResult.Denied Reason.StaleGeneration
    else if r.permissions.allows op = false then
      CheckResult.Denied Reason.PermissionViolation
    else if r.size ≤ tag.offset then CheckResult.Denied Reason.OutOfBounds
    else CheckResult.Ok

/-- Modelled from the spec: `revoke(region_id)` (spec §4.4): fails with
`UnknownRegion` if absent; on a valid region it atomically clears `valid`
and bumps the generation; revoking an already-invalid region is a no-op
success. -/
def revoke (t : Tracker) (rid : Nat) : Except TrackerError Tracker :=
  match findRegion t rid with
  | none => Except.error TrackerError.UnknownRegion
  | some r =>
    if r.valid = true then
      Except.ok (Tracker.mk (t.regions.set rid
        (some (Region.mk r.base r.size (r.generation + 1) r.permissions false))))
    else Except.ok t

/-- Modelled from the spec: one call of the tracker's API surface
(spec §6). -/
inductive ApiCall where
  | register (base size : Nat) (perms : Permissions)
  | deregister (rid : Nat)
  | bumpGen (rid : Nat)
  | revoke (rid : Nat)
  | mint (a : Nat)
  | check (tag : Tag) (op : Op)
deriving DecidableEq

/-- Result value of one API call. -/
inductive ApiResult where
  | newRegion (rid : Nat)
  | unit
  | newTag (tag : Tag)
  | checked (c : CheckResult)
  | err (e : TrackerError)
deriving DecidableEq

/-- One step of the tracker: dispatch an API call against the current table,
returning the call's result and the next table state.  A failed call leaves
the table unchanged (errors are plain return values, spec §7). -/
def step (t : Tracker) (c : ApiCall) : ApiResult × Tracker :=
  match c with
  | ApiCall.register b s p =>
    match register t b s p with
    | Except.ok x => (ApiResult.newRegion x.1, x.2)
    | Except.error e => (ApiResult.err e, t)
  | ApiCall.deregister rid =>
    match deregister t rid with
    | Except.ok t2 => (ApiResult.unit, t2)
    | Except.error e => (ApiResult.err e, t)
  | ApiCall.bumpGen rid =>
    match bump_generation t rid with
    | Except.ok t2 => (ApiResult.unit, t2)
    | Except.error e => (ApiResult.err e, t)
  | ApiCall.revoke rid =>
    match revoke t rid with
    | Except.ok t2 => (ApiResult.unit, t2)
    | Except.error e => (ApiResult.err e, t)
  | ApiCall.mint a =>
    match mint t a with
    | Except.ok tg => (ApiResult.newTag tg, t)
    | Except.error e => (ApiResult.err e, t)
  | ApiCall.check tag op => (ApiResult.checked (check t tag op), t)

/-- The table state after one API call. -/
def applyCall (t : Tracker) (c : ApiCall) : Tracker := (step t c).2

/-- The table state after a sequence of API calls. -/
def run (t : Tracker) : List ApiCall → Tracker
  | [] => t
  | c :: cs => run (applyCall t c) cs

/-- Whether a table slot holds a revoked (invalid) region record. -/
def isRevokedEntry : Option Region → Bool
  | some r => !r.valid
  | none => false

/-- A region id whose slot, if still present, is marked invalid, and which
stays inside the table's index space (so `register` can never mint it
again). -/
def deadAt (t : Tracker) (rid : Nat) : Prop :=
  rid < t.regions.length ∧ ∀ r, findRegion t rid = some r → r.valid = false

lemma findRegion_eq_some_iff {t : Tracker} {rid : Nat} {r : Region} :
    findRegion t rid = some r ↔ t.regions[rid]? = some (some r) := by
  unfold findRegion
  cases h : t.regions[rid]? with
  | none => simp
  | some o => cases o <;> simp

lemma lt_length_of_findRegion {t : Tracker} {rid : Nat} {r : Region}
    (h : findRegion t rid = some r) : rid < t.regions.length := by
  rcases List.getElem?_eq_some.mp (findRegion_eq_some_iff.mp h) with ⟨hl, _⟩
  exact hl

lemma findRegion_set_self (t : Tracker) (rid : Nat) (o : Option Region)
    (h : rid < t.regions.length) :
    findRegion (Tracker.mk (t.regions.set rid o)) rid = o := by
  unfold findRegion
  simp [List.getElem?_set, h]

lemma findRegion_set_ne (t : Tracker) (rid rid2 : Nat) (o : Option Region)
    (h : rid ≠ rid2) :
    findRegion (Tracker.mk (t.regions.set rid o)) rid2 = findRegion t rid2 := by
  unfold findRegion
  simp [List.getElem?_set, h]

lemma findRegion_append_lt (t : Tracker) (rid : Nat) (l : List (Option Region))
    (h : rid < t.regions.length) :
    findRegion (Tracker.mk (t.regions ++ l)) rid = findRegion t rid := by
  unfold findRegion
  simp [List.getElem?_append, h]

lemma applyCall_register_eq (t : Tracker) (b s : Nat) (p : Permissions) :
    applyCall t (ApiCall.register b s p) =
      if overlapsExisting t b s = true then t
      else Tracker.mk (t.regions ++ [some (Region.mk b s 0 p true)]) := by
  by_cases h : overlapsExisting t b s = true <;>
    simp [applyCall, step, register, h]

lemma applyCall_deregister_eq (t : Tracker) (rid : Nat) :
    applyCall t (ApiCall.deregister rid) =
      match findRegion t rid with
      | none => t
      | some _ => Tracker.mk (t.regions.set rid none) := by
  cases h : findRegion t rid <;> simp [applyCall, step, deregister, h]

lemma applyCall_bumpGen_eq (t : Tracker) (rid : Nat) :
    applyCall t (ApiCall.bumpGen rid) =
      match findRegion t rid with
      | none => t
      | some r => Tracker.mk (t.regions.set rid
          (some (Region.mk r.base r.size (r.generation + 1) r.permissions r.valid))) := by
  cases h : findRegion t rid <;> simp [applyCall, step, bump_generation, h]

lemma applyCall_revoke_eq (t : Tracker) (rid : Nat) :
    applyCall t (ApiCall.revoke rid) =
      match findRegion t rid with
      | none => t
      | some r =>
        if r.valid = true then
          Tracker.mk (t.regions.set rid
            (some (Region.mk r.base r.size (r.generation + 1) r.permissions false)))
        else t := by
  cases h : findRegion t rid with
  | none => simp [applyCall, step, revoke, h]
  | some r => by_cases hv : r.valid = true <;> simp [applyCall, step, revoke, h, hv]

lemma applyCall_mint_eq (t : Tracker) (a : Nat) :
    applyCall t (ApiCall.mint a) = t := by
  cases h : mint t a <;> simp [applyCall, step, h]

lemma applyCall_check_eq (t : Tracker) (tg : Tag) (op : Op) :
    applyCall t (ApiCall.check tg op) = t := rfl

lemma length_applyCall (t : Tracker) (c : ApiCall) :
    t.regions.length ≤ (applyCall t c).regions.length := by
  cases c with
  | register b s p =>
    rw [applyCall_register_eq]
    split <;> simp
  | deregister rid =>
    rw [applyCall_deregister_eq]
    split <;> simp
  | bumpGen rid =>
    rw [applyCall_bumpGen_eq]
    split <;> simp
  | revoke rid =>
    rw [applyCall_revoke_eq]
    split
    · exact le_refl _
    · split <;> simp
  | mint a => rw [applyCall_mint_eq]
  | check tg op => rw [applyCall_check_eq]

lemma deadAt_applyCall {t : Tracker} {rid : Nat} (c : ApiCall)
    (hd : deadAt t rid) : deadAt (applyCall t c) rid := by
  obtain ⟨hlt, hinv⟩ := hd
  cases c with
  | register b s p =>
    rw [applyCall_register_eq]
    split
    · exact ⟨hlt, hinv⟩
    · refine ⟨by simp; omega, ?_⟩
      intro r hr
      rw [findRegion_append_lt _ _ _ hlt] at hr
      exact hinv r hr
  | deregister rid2 =>
    rw [applyCall_deregister_eq]
    cases hf : findRegion t rid2 with
    | none => exact ⟨hlt, hinv⟩
    | some r0 =>
      refine ⟨by simpa using hlt, ?_⟩
      intro r hr
      by_cases he : rid2 = rid
      · subst he
        rw [findRegion_set_self _ _ _ hlt] at hr
        simp at hr
      · rw [findRegion_set_ne _ _ _ _ he] at hr
        exact hinv r hr
  | bumpGen rid2 =>
    rw [applyCall_bumpGen_eq]
    cases hf : findRegion t rid2 with
    | none => exact ⟨hlt, hinv⟩
    | some r0 =>
      refine ⟨by simpa using hlt, ?_⟩
      intro r hr
      by_cases he : rid2 = rid
      · subst he
        rw [findRegion_set_self _ _ _ hlt] at hr
        injection hr with hr2
        subst hr2
        simpa using hinv r0 hf
      · rw [findRegion_set_ne _ _ _ _ he] at hr
        exact hinv r hr
  | revoke rid2 =>
    cases hf : findRegion t rid2 with
    | none =>
      have he : applyCall t (ApiCall.revoke rid2) = t := by
        simp [applyCall, step, revoke, hf]
      rw [he]
      exact ⟨hlt, hinv⟩
    | some r0 =>
      cases hv : r0.valid with
      | true =>
        have he : applyCall t (ApiCall.revoke rid2) = Tracker.mk (t.regions.set rid2
            (some (Region.mk r0.base r0.size (r0.generation + 1) r0.permissions false))) := by
          simp [applyCall, step, revoke, hf, hv]
        rw [he]
        by_cases heq : rid2 = rid
        · subst heq
          rw [hinv r0 hf] at hv
          cases hv
        · refine ⟨by simpa using hlt, ?_⟩
          intro r hr
          rw [findRegion_set_ne _ _ _ _ heq] at hr
          exact hinv r hr
      | false =>
        have he : applyCall t (ApiCall.revoke rid2) = t := by
          simp [applyCall, step, revoke, hf, hv]
        rw [he]
        exact ⟨hlt, hinv⟩
  | mint a =>
    rw [applyCall_mint_eq]
    exact ⟨hlt, hinv⟩
  | check tg op =>
    rw [applyCall_check_eq]
    exact ⟨hlt, hinv⟩

lemma deadAt_run {t : Tracker} {rid : Nat} (hd : deadAt t rid)
    (ops : List ApiCall) : deadAt (run t ops) rid := by
  induction ops generalizing t with
  | nil => exact hd
  | cons c cs ih => exact ih (deadAt_applyCall c hd)

lemma revoke_eq_of_valid {t : Tracker} {rid : Nat} {r : Region}
    (hf : findRegion t rid = some r) (hv : r.valid = true) :
    revoke t rid = Except.ok (Tracker.mk (t.regions.set rid
      (some (Region.mk r.base r.size (r.generation + 1) r.permissions false)))) := by
  simp [revoke, hf, hv]

lemma revoke_eq_of_invalid {t : Tracker} {rid : Nat} {r : Region}
    (hf : findRegion t rid = some r) (hv : r.valid = false) :
    revoke t rid = Except.ok t := by
  simp [revoke, hf, hv]

lemma revoke_ok_deadAt {t t1 : Tracker} {rid : Nat}
    (h : revoke t rid = Except.ok t1) : deadAt t1 rid := by
  cases hf : findRegion t rid with
  | none => unfold revoke at h; rw [hf] at h; cases h
  | some r =>
    have hlt := lt_length_of_findRegion hf
    cases hv : r.valid with
    | true =>
      rw [revoke_eq_of_valid hf hv] at h
      injection h with h2
      subst h2
      refine ⟨by simpa using hlt, ?_⟩
      intro r2 hr2
      rw [findRegion_set_self _ _ _ hlt] at hr2
      injection hr2 with hr3
      subst hr3
      rfl
    | false =>
      rw [revoke_eq_of_invalid hf hv] at h
      injection h with h2
      subst h2
      refine ⟨hlt, ?_⟩
      intro r2 hr2
      rw [hf] at hr2
      injection hr2 with hr3
      subst hr3
      exact hv

lemma check_of_dead {t : Tracker} {tag : Tag} {op : Op}
    (h : ∀ r, findRegion t tag.region_id = some r → r.valid = false) :
    check t tag op = CheckResult.Denied Reason.Revoked := by
  unfold check
  cases hf : findRegion t tag.region_id with
  | none => rfl
  | some r => simp [h r hf]

lemma gen_none_applyCall {t : Tracker} {rid : Nat} (c : ApiCall)
    (hlt : rid < t.regions.length) (h : findRegion t rid = none) :
    findRegion (applyCall t c) rid = none := by
  cases c with
  | register b s p =>
    rw [applyCall_register_eq]
    split
    · exact h
    · rw [findRegion_append_lt _ _ _ hlt]
      exact h
  | deregister rid2 =>
    rw [applyCall_deregister_eq]
    cases hf : findRegion t rid2 with
    | none => exact h
    | some r0 =>
      by_cases he : rid2 = rid
      · subst he
        rw [h] at hf
        cases hf
      · rw [findRegion_set_ne _ _ _ _ he]
        exact h
  | bumpGen rid2 =>
    rw [applyCall_bumpGen_eq]
    cases hf : findRegion t rid2 with
    | none => exact h
    | some r0 =>
      by_cases he : rid2 = rid
      · subst he
        rw [h] at hf
        cases hf
      · rw [findRegion_set_ne _ _ _ _ he]
        exact h
  | revoke rid2 =>
    cases hf : findRegion t rid2 with
    | none =>
      have he : applyCall t (ApiCall.revoke rid2) = t := by
        simp [applyCall, step, revoke, hf]
      rw [he]
      exact h
    | some r0 =>
      cases hv : r0.valid with
      | true =>
        have he : applyCall t (ApiCall.revoke rid2) = Tracker.mk (t.regions.set rid2
            (some (Region.mk r0.base r0.size (r0.generation + 1) r0.permissions false))) := by
          simp [applyCall, step, revoke, hf, hv]
        rw [he]
        by_cases heq : rid2 = rid
        · subst heq
          rw [h] at hf
          cases hf
        · rw [findRegion_set_ne _ _ _ _ heq]
          exact h
      | false =>
        have he : applyCall t (ApiCall.revoke rid2) = t := by
          simp [applyCall, step, revoke, hf, hv]
        rw [he]
        exact h
  | mint a =>
    rw [applyCall_mint_eq]
    exact h
  | check tg op =>
    rw [applyCall_check_eq]
    exact h

lemma gen_none_run {t : Tracker} {rid : Nat} (ops : List ApiCall)
    (hlt : rid < t.regions.length) (h : findRegion t rid = none) :
    findRegion (run t ops) rid = none := by
  induction ops generalizing t with
  | nil => exact h
  | cons c cs ih =>
    exact ih (lt_of_lt_of_le hlt (length_applyCall t c)) (gen_none_applyCall c hlt h)

lemma gen_mono_applyCall {t : Tracker} {rid : Nat} {r : Region} (c : ApiCall)
    (h : findRegion t rid = some r) :
    findRegion (applyCall t c) rid = none ∨
    ∃ r2, findRegion (applyCall t c) rid = some r2 ∧
      r.generation ≤ r2.generation := by
  have hlt := lt_length_of_findRegion h
  cases c with
  | register b s p =>
    rw [applyCall_register_eq]
    split
    · exact Or.inr ⟨r, h, le_refl _⟩
    · rw [findRegion_append_lt _ _ _ hlt]
      exact Or.inr ⟨r, h, le_refl _⟩
  | deregister rid2 =>
    rw [applyCall_deregister_eq]
    cases hf : findRegion t rid2 with
    | none => exact Or.inr ⟨r, h, le_refl _⟩
    | some r0 =>
      by_cases he : rid2 = rid
      · subst he
        rw [findRegion_set_self _ _ _ hlt]
        exact Or.inl rfl
      · rw [findRegion_set_ne _ _ _ _ he]
        exact Or.inr ⟨r, h, le_refl _⟩
  | bumpGen rid2 =>
    rw [applyCall_bumpGen_eq]
    cases hf : findRegion t rid2 with
    | none => exact Or.inr ⟨r, h, le_refl _⟩
    | some r0 =>
      by_cases he : rid2 = rid
      · subst he
        rw [h] at hf
        injection hf with hf2
        subst hf2
        rw [findRegion_set_self _ _ _ hlt]
        exact Or.inr ⟨_, rfl, by simp⟩
      · rw [findRegion_set_ne _ _ _ _ he]
        exact Or.inr ⟨r, h, le_refl _⟩
  | revoke rid2 =>
    cases hf : findRegion t rid2 with
    | none =>
      have he : applyCall t (ApiCall.revoke rid2) = t := by
        simp [applyCall, step, revoke, hf]
      rw [he]
      exact Or.inr ⟨r, h, le_refl _⟩
    | some r0 =>
      cases hv : r0.valid with
      | true =>
        have he : applyCall t (ApiCall.revoke rid2) = Tracker.mk (t.regions.set rid2
            (some (Region.mk r0.base r0.size (r0.generation + 1) r0.permissions false))) := by
          simp [applyCall, step, revoke, hf, hv]
        rw [he]
        by_cases heq : rid2 = rid
        · subst heq
          rw [h] at hf
          injection hf with hf2
          subst hf2
          rw [findRegion_set_self _ _ _ hlt]
          exact Or.inr ⟨_, rfl, by simp⟩
        · rw [findRegion_set_ne _ _ _ _ heq]
          exact Or.inr ⟨r, h, le_refl _⟩
      | false =>
        have he : applyCall t (ApiCall.revoke rid2) = t := by
          simp [applyCall, step, revoke, hf, hv]
        rw [he]
        exact Or.inr ⟨r, h, le_refl _⟩
  | mint a =>
    rw [applyCall_mint_eq]
    exact Or.inr ⟨r, h, le_refl _⟩
  | check tg op =>
    rw [applyCall_check_eq]
    exact Or.inr ⟨r, h, le_refl _⟩

lemma gen_mono_run {t : Tracker} {rid : Nat} {r : Region} (ops : List ApiCall)
    (h : findRegion t rid = some r) :
    findRegion (run t ops) rid = none ∨
    ∃ r2, findRegion (run t ops) rid = some r2 ∧
      r.generation ≤ r2.generation := by
  induction ops generalizing t r with
  | nil => exact Or.inr ⟨r, h, le_refl _⟩
  | cons c cs ih =>
    rcases gen_mono_applyCall c h with hn | ⟨r2, h2, hle⟩
    · left
      have hlt : rid < (applyCall t c).regions.length :=
        lt_of_lt_of_le (lt_length_of_findRegion h) (length_applyCall t c)
      exact gen_none_run cs hlt hn
    · rcases ih h2 with hn | ⟨r3, h3, hle2⟩
      · exact Or.inl hn
      · exact Or.inr ⟨r3, h3, le_trans hle hle2⟩

lemma overlaps_iff (b1 s1 b2 s2 : Nat) :
    overlaps b1 s1 b2 s2 = true ↔
      ∃ a, b1 ≤ a ∧ a < b1 + s1 ∧ b2 ≤ a ∧ a < b2 + s2 := by
  unfold overlaps
  simp only [decide_eq_true_eq]
  constructor
  · intro h
    rw [lt_min_iff] at h
    exact ⟨max b1 b2, le_max_left _ _, h.1, le_max_right _ _, h.2⟩
  · rintro ⟨a, h1, h2, h3, h4⟩
    rw [lt_min_iff, max_lt_iff, max_lt_iff]
    omega

lemma overlapsExisting_single (b1 s1 b2 s2 : Nat) (p1 : Permissions) :
    overlapsExisting (Tracker.mk [some (Region.mk b1 s1 0 p1 true)]) b2 s2
      = overlaps b2 s2 b1 s1 := by
  simp [overlapsExisting]

lemma run_pure (t : Tracker) (calls : List ApiCall)
    (h : ∀ c ∈ calls, (∃ a, c = ApiCall.mint a) ∨
      (∃ tg op, c = ApiCall.check tg op)) :
    run t calls = t := by
  induction calls generalizing t with
  | nil => rfl
  | cons c cs ih =>
    have hc := h c (by simp)
    have ht : applyCall t c = t := by
      rcases hc with ⟨a, rfl⟩ | ⟨tg, op, rfl⟩
      · exact applyCall_mint_eq t a
      · rfl
    show run (applyCall t c) cs = t
    rw [ht]
    exact ih t (fun c2 hc2 => h c2 (by simp [hc2]))

/-- C3 (spec-modelled): revocation is absolute.  Once `revoke` has returned
successfully on region `rid`, every later `check` of a tag carrying that
region id is `Denied Revoked`, in every state reachable by any further
sequence of API calls: no operation short of a brand-new region (which
necessarily gets a fresh id) makes such a tag pass again. -/
theorem revocation_absolute (t t1 : Tracker) (rid : Nat) (ops : List ApiCall)
    (tag : Tag) (op : Op)
    (hrev : revoke t rid = Except.ok t1) (htag : tag.region_id = rid) :
    check (run t1 ops) tag op = CheckResult.Denied Reason.Revoked := by
  have hd := deadAt_run (revoke_ok_deadAt hrev) ops
  refine check_of_dead ?_
  intro r hr
  rw [htag] at hr
  exact hd.2 r hr

/-- Witness for C3: a region registered at 4096, revoked, then subjected to
a generation bump, a fresh registration, a mint and a deregistration still
denies a pre-revocation tag with reason `Revoked`. -/
theorem revocation_absolute_witness :
    check
      (run (Tracker.mk [some (Region.mk 4096 64 1 (Permissions.mk true true false) false)])
        [ApiCall.bumpGen 0, ApiCall.register 8192 32 (Permissions.mk true true false),
         ApiCall.mint 4100, ApiCall.deregister 1])
      (Tag.mk 0 0 16) Op.write = CheckResult.Denied Reason.Revoked :=
  revocation_absolute
    (Tracker.mk [some (Region.mk 4096 64 0 (Permissions.mk true true false) true)])
    (Tracker.mk [some (Region.mk 4096 64 1 (Permissions.mk true true false) false)])
    0
    [ApiCall.bumpGen 0, ApiCall.register 8192 32 (Permissions.mk true true false),
     ApiCall.mint 4100, ApiCall.deregister 1]
    (Tag.mk 0 0 16) Op.write rfl rfl

/-- C4 (spec-modelled): generation monotonicity.  Over any sequence of API
calls, a region's generation never decreases (no reachable state shows a
generation lower than an earlier one), and a `revoke` of a valid region
increments it by exactly one. -/
theorem generation_monotone (t : Tracker) (ops : List ApiCall) (rid : Nat)
    (r r2 : Region)
    (h1 : findRegion t rid = some r)
    (h2 : findRegion (run t ops) rid = some r2) :
    r.generation ≤ r2.generation ∧
    (ops = [ApiCall.revoke rid] → r.valid = true →
      r2.generation = r.generation + 1) := by
  constructor
  · rcases gen_mono_run ops h1 with hn | ⟨r3, h3, hle⟩
    · rw [hn] at h2
      cases h2
    · rw [h3] at h2
      injection h2 with h4
      subst h4
      exact hle
  · rintro rfl hv
    have hlt := lt_length_of_findRegion h1
    have hrun : run t [ApiCall.revoke rid] = Tracker.mk (t.regions.set rid
        (some (Region.mk r.base r.size (r.generation + 1) r.permissions false))) := by
      show applyCall t (ApiCall.revoke rid) = _
      simp [applyCall, step, revoke, h1, hv]
    rw [hrun, findRegion_set_self _ _ _ hlt] at h2
    injection h2 with h3
    subst h3
    rfl

/-- Witness for C4: revoking the valid region at id 0 takes its generation
from 0 to exactly 1, and 0 ≤ 1. -/
theorem generation_monotone_witness :
    (Region.mk 4096 64 0 (Permissions.mk true true false) true).generation ≤
      (Region.mk 4096 64 1 (Permissions.mk true true false) false).generation ∧
    (Region.mk 4096 64 1 (Permissions.mk true true false) false).generation =
      (Region.mk 4096 64 0 (Permissions.mk true true false) true).generation + 1 :=
  ⟨(generation_monotone
      (Tracker.mk [some (Region.mk 4096 64 0 (Permissions.mk true true false) true)])
      [ApiCall.revoke 0] 0
      (Region.mk 4096 64 0 (Permissions.mk true true false) true)
      (Region.mk 4096 64 1 (Permissions.mk true true false) false)
      rfl rfl).1,
   (generation_monotone
      (Tracker.mk [some (Region.mk 4096 64 0 (Permissions.mk true true false) true)])
      [ApiCall.revoke 0] 0
      (Region.mk 4096 64 0 (Permissions.mk true true false) true)
      (Region.mk 4096 64 1 (Permissions.mk true true false) false)
      rfl rfl).2 rfl rfl⟩

/-- C5 (spec-modelled): overlap rejection.  Starting from the empty table,
`register b1 s1` succeeds; a second `register b2 s2` fails with
`OverlapError` whenever some address lies in both half-open ranges, and
succeeds (appending a fresh region) whenever no address does. -/
theorem overlap_rejection (b1 s1 b2 s2 : Nat) (p1 p2 : Permissions)
    (r1 : Nat) (t1 : Tracker)
    (h1 : register emptyTracker b1 s1 p1 = Except.ok (r1, t1)) :
    ((∃ a, b1 ≤ a ∧ a < b1 + s1 ∧ b2 ≤ a ∧ a < b2 + s2) →
      register t1 b2 s2 p2 = Except.error TrackerError.OverlapError) ∧
    ((∀ a, ¬(b1 ≤ a ∧ a < b1 + s1 ∧ b2 ≤ a ∧ a < b2 + s2)) →
      register t1 b2 s2 p2 = Except.ok (t1.regions.length,
        Tracker.mk (t1.regions ++ [some (Region.mk b2 s2 0 p2 true)]))) := by
  have ht1 : t1 = Tracker.mk [some (Region.mk b1 s1 0 p1 true)] := by
    simp [register, emptyTracker, overlapsExisting] at h1
    exact h1.2.symm
  subst ht1
  constructor
  · rintro ⟨a, ha1, ha2, ha3, ha4⟩
    have hov : overlaps b2 s2 b1 s1 = true :=
      (overlaps_iff b2 s2 b1 s1).mpr ⟨a, ha3, ha4, ha1, ha2⟩
    simp [register, overlapsExisting_single, hov]
  · intro hdisj
    have hov : overlaps b2 s2 b1 s1 = false := by
      rw [Bool.eq_false_iff]
      intro hc
      rcases (overlaps_iff b2 s2 b1 s1).mp hc with ⟨a, ha1, ha2, ha3, ha4⟩
      exact hdisj a ⟨ha3, ha4, ha1, ha2⟩
    simp [register, overlapsExisting_single, hov]

/-- Witness for C5: after registering `[4096, 4160)`, registering the
overlapping `[4128, 4192)` fails with `OverlapError` while the disjoint
`[8192, 8256)` succeeds. -/
theorem overlap_rejection_witness :
    register (Tracker.mk [some (Region.mk 4096 64 0 (Permissions.mk true true false) true)])
      4128 64 (Permissions.mk true false false)
      = Except.error TrackerError.OverlapError ∧
    register (Tracker.mk [some (Region.mk 4096 64 0 (Permissions.mk true true false) true)])
      8192 64 (Permissions.mk true false false)
      = Except.ok (1, Tracker.mk
          [some (Region.mk 4096 64 0 (Permissions.mk true true false) true),
           some (Region.mk 8192 64 0 (Permissions.mk true false false) true)]) :=
  ⟨(overlap_rejection 4096 64 4128 64 (Permissions.mk true true false)
      (Permissions.mk true false false) 0
      (Tracker.mk [some (Region.mk 4096 64 0 (Permissions.mk true true false) true)])
      rfl).1 ⟨4128, by omega, by omega, by omega, by omega⟩,
   (overlap_rejection 4096 64 8192 64 (Permissions.mk true true false)
      (Permissions.mk true false false) 0
      (Tracker.mk [some (Region.mk 4096 64 0 (Permissions.mk true true false) true)])
      rfl).2 (by intro a; omega)⟩

/-- C6 (spec-modelled): revoke is idempotent.  If `revoke` on region `rid`
returned state `t1`, then a second `revoke` on `t1` is a no-op success
returning exactly `t1`, and the region's slot in `t1` is marked revoked (so
its generation is whatever the first call left: no decrement, no reset). -/
theorem revoke_idempotent (t t1 : Tracker) (rid : Nat)
    (h : revoke t rid = Except.ok t1) :
    revoke t1 rid = Except.ok t1 ∧
    isRevokedEntry (findRegion t1 rid) = true := by
  have hd := revoke_ok_deadAt h
  have hsome : ∃ r2, findRegion t1 rid = some r2 := by
    cases hf : findRegion t rid with
    | none => unfold revoke at h; rw [hf] at h; cases h
    | some r =>
      have hlt := lt_length_of_findRegion hf
      cases hv : r.valid with
      | true =>
        rw [revoke_eq_of_valid hf hv] at h
        injection h with h2
        subst h2
        exact ⟨_, findRegion_set_self _ _ _ hlt⟩
      | false =>
        rw [revoke_eq_of_invalid hf hv] at h
        injection h with h2
        subst h2
        exact ⟨r, hf⟩
  rcases hsome with ⟨r2, hr2⟩
  have hv2 : r2.valid = false := hd.2 r2 hr2
  constructor
  · simp [revoke, hr2, hv2]
  · rw [hr2]
    simp [isRevokedEntry, hv2]

/-- Witness for C6: revoking the already-revoked single-region table is a
no-op success on the very state the first revoke produced. -/
theorem revoke_idempotent_witness :
    revoke (Tracker.mk [some (Region.mk 4096 64 1 (Permissions.mk true true false) false)]) 0
      = Except.ok (Tracker.mk
          [some (Region.mk 4096 64 1 (Permissions.mk true true false) false)]) ∧
    isRevokedEntry (findRegion
      (Tracker.mk [some (Region.mk 4096 64 1 (Permissions.mk true true false) false)]) 0)
      = true :=
  revoke_idempotent
    (Tracker.mk [some (Region.mk 4096 64 0 (Permissions.mk true true false) true)])
    (Tracker.mk [some (Region.mk 4096 64 1 (Permissions.mk true true false) false)])
    0 rfl

/-- C7 (spec-modelled): `mint` and `check` are pure with respect to the
Region Table.  Any sequence consisting only of `mint` and `check` calls
leaves the table exactly unchanged, a single `mint` step never changes the
table, and a `check` step returns its verdict (including any denial)
alongside the untouched table. -/
theorem mint_check_pure (t : Tracker) (calls : List ApiCall)
    (h : ∀ c ∈ calls, (∃ a, c = ApiCall.mint a) ∨
      (∃ tg op, c = ApiCall.check tg op)) :
    run t calls = t ∧
    (∀ a, (step t (ApiCall.mint a)).2 = t) ∧
    (∀ tg op, step t (ApiCall.check tg op)
      = (ApiResult.checked (check t tg op), t)) := by
  refine ⟨run_pure t calls h, ?_, fun tg op => rfl⟩
  intro a
  cases hm : mint t a <;> simp [step, hm]

/-- Witness for C7: a mint and a (denied) check against a one-region table
leave the table exactly as it was. -/
theorem mint_check_pure_witness :
    run (Tracker.mk [some (Region.mk 4096 64 0 (Permissions.mk true true false) true)])
      [ApiCall.mint 4100, ApiCall.check (Tag.mk 0 3 4) Op.read]
      = Tracker.mk [some (Region.mk 4096 64 0 (Permissions.mk true true false) true)] :=
  (mint_check_pure
    (Tracker.mk [some (Region.mk 4096 64 0 (Permissions.mk true true false) true)])
    [ApiCall.mint 4100, ApiCall.check (Tag.mk 0 3 4) Op.read]
    (by
      intro c hc
      rcases List.mem_cons.mp hc with rfl | hc2
      · exact Or.inl ⟨4100, rfl⟩
      · rcases List.mem_cons.mp hc2 with rfl | hc3
        · exact Or.inr ⟨Tag.mk 0 3 4, Op.read, rfl⟩
        · cases hc3)).1

end Capslock
